import Mathlib

/-!
Verification development for the `conf` configuration library (Go).

We shallowly embed the reflective struct-population engine from `conf.go`,
the environment-variable provider from the unnamed provider file, and prove
properties about them. Go machine integers are modelled as `Int`/`Nat` with
explicit range checks mirroring the `strconv` bit-size arguments; Go's
in-place mutation (of the target struct and of the shared
`defaultTypeParsers` map) is modelled by explicit value/state passing.
The model fixes a 64-bit platform: the destination width of the plain
`int`/`uint` kinds is 64 bits.

Modelling notes (deviations are documented where they occur):
* `float` parsing (`strconv.ParseFloat`) is modelled only on optional-sign
  decimal-integer literals, with the exact overflow thresholds; the parsed
  value is carried as the exact integer (rounding to the nearest binary
  float is not modelled — no theorem below depends on it).
* `time.ParseDuration` is modelled on single `<digits><unit>` tokens and the
  literal `"0"`.
* `url.Parse` is modelled as succeeding unless the string contains an ASCII
  control character.
* JSON strings are parsed by a recursive-descent parser covering objects,
  arrays, strings (with single-character escapes), integer/fraction/exponent
  numbers, booleans and null; decoding into a struct covers flat
  string/bool/integer members (nested members produce a decode error).
* `encoding.TextUnmarshaler` types are modelled by the `tNamed` type former:
  `tNamed id true` is a named non-struct type whose pointer implements
  `UnmarshalText`; its behaviour is supplied by an environment (`CEnv`) as a
  function of the input text (a fresh/overwritten receiver).
-/

namespace Conf

/-- The numeric kinds of `reflect`: signed, unsigned and float kinds. -/
inductive NumKind where
  | int | int8 | int16 | int32 | int64
  | uint | uint8 | uint16 | uint32 | uint64
  | float32 | float64
deriving DecidableEq, Repr

/-- `reflect.Kind`, restricted to the kinds the engine dispatches on. -/
inductive GoKind where
  | kBool
  | kString
  | kNum (k : NumKind)
  | kPtr
  | kSlice
  | kStruct
  | kOther
deriving DecidableEq, Repr

mutual

/-- A Go type, as the engine observes it through `reflect`.
`tNum k` covers the twelve primitive numeric types, `tDuration` is
`time.Duration` (a named type of kind `Int64`), `tURL` is `url.URL`
(kind `Struct`), and `tNamed id tu` is an opaque named non-struct type
whose pointer implements `encoding.TextUnmarshaler` iff `tu`.
`tStruct name fields` carries the struct type name (`""` for an unnamed
struct type literal) and its field descriptors. -/
inductive GoType where
  | tBool
  | tString
  | tNum (k : NumKind)
  | tDuration
  | tURL
  | tNamed (id : Nat) (tu : Bool)
  | tPtr (elem : GoType)
  | tSlice (elem : GoType)
  | tStruct (name : String) (fields : FieldList)

/-- A list of struct-field descriptors. -/
inductive FieldList where
  | nil
  | cons (f : GoField) (rest : FieldList)

/-- `reflect.StructField`: name, tag key/value pairs, whether the field is
settable (exported), and its declared type. -/
inductive GoField where
  | mk (name : String) (tags : List (String × String)) (exported : Bool) (ty : GoType)

end

/-- Field name projection. -/
def GoField.name : GoField → String
  | .mk n _ _ _ => n

/-- Field tag-list projection. -/
def GoField.tags : GoField → List (String × String)
  | .mk _ t _ _ => t

/-- Whether the field is settable (exported). -/
def GoField.exported : GoField → Bool
  | .mk _ _ e _ => e

/-- Declared field type projection. -/
def GoField.ty : GoField → GoType
  | .mk _ _ _ t => t

/-- `reflect.Type.Kind()` for the modelled types. -/
def GoType.kind : GoType → GoKind
  | .tBool => .kBool
  | .tString => .kString
  | .tNum k => .kNum k
  | .tDuration => .kNum .int64
  | .tURL => .kStruct
  | .tNamed _ _ => .kOther
  | .tPtr _ => .kPtr
  | .tSlice _ => .kSlice
  | .tStruct _ _ => .kStruct

/-- Strip one pointer former, as `set` does with `sf.Type.Elem()`. -/
def baseType : GoType → GoType
  | .tPtr t => t
  | t => t

/-- Whether the pointer to this type implements `encoding.TextUnmarshaler`. -/
def typeHasTU : GoType → Bool
  | .tNamed _ tu => tu
  | _ => false

mutual

/-- A Go value of the modelled types. Pointers record their pointee type and
are either nil (`vPtrNil`) or carry the pointee (`vPtrSome`); slices and
structs carry their elements/field values. `vNamed id payload` is the state
of an opaque named value (as written by its `UnmarshalText`). A `url.URL`
value is modelled by the string it was parsed from. -/
inductive GoValue where
  | vBool (b : Bool)
  | vString (s : String)
  | vNum (k : NumKind) (n : Int)
  | vDuration (n : Int)
  | vURL (raw : String)
  | vNamed (id : Nat) (payload : String)
  | vPtrNil (elem : GoType)
  | vPtrSome (elem : GoType) (pointee : GoValue)
  | vSlice (elem : GoType) (elems : ValueList)
  | vStruct (name : String) (vals : ValueList)

/-- A list of field values, parallel to a `FieldList`. -/
inductive ValueList where
  | nil
  | cons (v : GoValue) (rest : ValueList)

end

mutual

/-- Boolean equality on `GoType` (used for the type-keyed parser map,
mirroring `reflect.Type` identity). -/
def GoType.beq : GoType → GoType → Bool
  | .tBool, .tBool => true
  | .tString, .tString => true
  | .tNum k, .tNum k' => k = k'
  | .tDuration, .tDuration => true
  | .tURL, .tURL => true
  | .tNamed i tu, .tNamed i' tu' => i = i' && tu = tu'
  | .tPtr t, .tPtr t' => GoType.beq t t'
  | .tSlice t, .tSlice t' => GoType.beq t t'
  | .tStruct n fs, .tStruct n' fs' => n = n' && FieldList.beq fs fs'
  | _, _ => false

/-- Boolean equality on field lists. -/
def FieldList.beq : FieldList → FieldList → Bool
  | .nil, .nil => true
  | .cons f fs, .cons f' fs' => GoField.beq f f' && FieldList.beq fs fs'
  | _, _ => false

/-- Boolean equality on field descriptors. -/
def GoField.beq : GoField → GoField → Bool
  | .mk n t e ty, .mk n' t' e' ty' => n = n' && t = t' && e = e' && GoType.beq ty ty'

end

mutual

/-- The zero value of a type (`reflect.New(t).Elem()`). -/
def zeroValue : GoType → GoValue
  | .tBool => .vBool false
  | .tString => .vString ""
  | .tNum k => .vNum k 0
  | .tDuration => .vDuration 0
  | .tURL => .vURL ""
  | .tNamed id _ => .vNamed id ""
  | .tPtr t => .vPtrNil t
  | .tSlice t => .vSlice t .nil
  | .tStruct n fs => .vStruct n (zeroFields fs)

/-- Zero values for a field list. -/
def zeroFields : FieldList → ValueList
  | .nil => .nil
  | .cons (.mk _ _ _ ty) fs => .cons (zeroValue ty) (zeroFields fs)

end

/-- `StructTag.Get`: the value of tag `k`, or `""` when absent. -/
def tagGet (tags : List (String × String)) (k : String) : String :=
  ((tags.find? (fun kv => kv.1 == k)).map Prod.snd).getD ""

/-- The errors the engine and the environment provider can surface. -/
inductive GoErr where
  | notAStructPtr
  | badNumber
  | outOfRange
  | parseErr (field : String) (ty : GoType) (inner : GoErr)
  | noParser (field : String) (ty : GoType)
  | unsupportedOpt (opt : String)
  | requiredMissing (key : String)
  | jsonError (msg : String)
  | customErr (msg : String)

/-- The numeric value of a nonempty all-digit character list, or `none`. -/
def digitsVal (cs : List Char) : Option Nat :=
  if cs ≠ [] ∧ cs.all Char.isDigit then
    some (cs.foldl (fun a c => a * 10 + (c.toNat - 48)) 0)
  else
    none

/-- The syntactic part of `strconv.ParseInt` in base 10: an optional sign
followed by decimal digits, with no range check. -/
def parseIntCore (s : String) : Option Int :=
  match s.data with
  | '+' :: rest => (digitsVal rest).map Int.ofNat
  | '-' :: rest => (digitsVal rest).map (fun n => -(n : Int))
  | l => (digitsVal l).map Int.ofNat

/-- The syntactic part of `strconv.ParseUint` in base 10: decimal digits
only (no sign prefix is permitted), with no range check. -/
def parseUintCore (s : String) : Option Nat :=
  digitsVal s.data

/-- `strconv.ParseInt(s, 10, bits)`: syntax error on a malformed literal,
range error outside the signed `bits`-bit range. -/
def parseIntGo (bits : Nat) (s : String) : Except GoErr Int :=
  match parseIntCore s with
  | none => .error .badNumber
  | some v =>
      if -(2 ^ (bits - 1) : Int) ≤ v ∧ v < 2 ^ (bits - 1) then .ok v
      else .error .outOfRange

/-- `strconv.ParseUint(s, 10, bits)`. -/
def parseUintGo (bits : Nat) (s : String) : Except GoErr Nat :=
  match parseUintCore s with
  | none => .error .badNumber
  | some v => if v < 2 ^ bits then .ok v else .error .outOfRange

/-- `strconv.ParseFloat(s, bits)`, modelled on optional-sign decimal-integer
literals. The overflow thresholds are the exact smallest integers that round
to infinity for the given width: `(2^25 - 1) * 2^103` for 32-bit floats and
`(2^54 - 1) * 2^970` for 64-bit floats. The accepted value is carried as the
exact integer; rounding is not modelled. -/
def parseFloatGo (bits : Nat) (s : String) : Except GoErr Int :=
  match parseIntCore s with
  | none => .error .badNumber
  | some v =>
      let lim : Int := if bits = 32 then (2 ^ 25 - 1) * 2 ^ 103 else (2 ^ 54 - 1) * 2 ^ 970
      if v < lim ∧ -lim < v then .ok v else .error .outOfRange

/-- `strconv.ParseBool`: exactly the literals Go accepts. -/
def parseBoolGo (s : String) : Except GoErr Bool :=
  if s = "1" ∨ s = "t" ∨ s = "T" ∨ s = "TRUE" ∨ s = "true" ∨ s = "True" then .ok true
  else if s = "0" ∨ s = "f" ∨ s = "F" ∨ s = "FALSE" ∨ s = "false" ∨ s = "False" then .ok false
  else .error .badNumber

/-- Nanoseconds per duration unit. -/
def durationUnitNanos : String → Option Int
  | "ns" => some 1
  | "us" => some 1000
  | "ms" => some 1000000
  | "s" => some 1000000000
  | "m" => some 60000000000
  | "h" => some 3600000000000
  | _ => none

/-- `time.ParseDuration`, modelled on the literal `"0"` and on single
`<digits><unit>` tokens with a unit among ns/us/ms/s/m/h. -/
def parseDurationGo (s : String) : Except GoErr Int :=
  if s = "0" then .ok 0
  else
    let digits := s.data.takeWhile Char.isDigit
    let unit := s.data.dropWhile Char.isDigit
    match digitsVal digits, durationUnitNanos (String.mk unit) with
    | some n, some u => .ok ((n : Int) * u)
    | _, _ => .error (.customErr "time: invalid duration")

/-- A parsed JSON value. Numbers record the sign, the integer part and
whether the literal had a fraction or exponent (in which case it is not
decodable into an integer field in this model). -/
inductive JValue where
  | jnull
  | jbool (b : Bool)
  | jnum (neg : Bool) (ip : Nat) (nonInt : Bool)
  | jstr (s : String)
  | jarr (elems : List JValue)
  | jobj (members : List (String × JValue))

/-- Drop JSON whitespace. -/
def skipWS (l : List Char) : List Char :=
  l.dropWhile (fun c => c = ' ' || c = '\t' || c = '\n' || c = '\r')

/-- Parse a JSON string body after the opening quote; escapes keep the
escaped character verbatim. -/
def jparseStr : List Char → Option (String × List Char)
  | [] => none
  | '"' :: rest => some ("", rest)
  | '\\' :: c :: rest =>
      (jparseStr rest).map (fun p => (String.mk (c :: p.1.data), p.2))
  | c :: rest =>
      (jparseStr rest).map (fun p => (String.mk (c :: p.1.data), p.2))

/-- Parse a JSON number starting at a digit or `-`. -/
def jparseNum (l : List Char) : Option (JValue × List Char) :=
  let (neg, l1) := match l with
    | '-' :: rest => (true, rest)
    | _ => (false, l)
  let digits := l1.takeWhile Char.isDigit
  let l2 := l1.dropWhile Char.isDigit
  match digitsVal digits with
  | none => none
  | some ip =>
      let (frac, l3) := match l2 with
        | '.' :: rest =>
            if (rest.takeWhile Char.isDigit) = [] then (none, l2)
            else (some (), rest.dropWhile Char.isDigit)
        | _ => (Option.none, l2)
      let (expo, l4) := match l3 with
        | 'e' :: rest => (some (), rest)
        | 'E' :: rest => (some (), rest)
        | _ => (none, l3)
      match expo with
      | some _ =>
          let l5 := match l4 with
            | '+' :: r => r
            | '-' :: r => r
            | _ => l4
          if (l5.takeWhile Char.isDigit) = [] then none
          else some (.jnum neg ip true, l5.dropWhile Char.isDigit)
      | none => some (.jnum neg ip frac.isSome, l4)

mutual

/-- Fuel-based recursive-descent JSON value parser. -/
def jparseVal : Nat → List Char → Option (JValue × List Char)
  | 0, _ => none
  | fuel + 1, l =>
      match skipWS l with
      | 'n' :: 'u' :: 'l' :: 'l' :: r => some (.jnull, r)
      | 't' :: 'r' :: 'u' :: 'e' :: r => some (.jbool true, r)
      | 'f' :: 'a' :: 'l' :: 's' :: 'e' :: r => some (.jbool false, r)
      | '"' :: r => (jparseStr r).map (fun p => (.jstr p.1, p.2))
      | '[' :: r =>
          (match skipWS r with
           | ']' :: r' => some (.jarr [], r')
           | r' => (jparseArrElems fuel r').map (fun p => (.jarr p.1, p.2)))
      | '{' :: r =>
          (match skipWS r with
           | '}' :: r' => some (.jobj [], r')
           | r' => (jparseObjMembers fuel r').map (fun p => (.jobj p.1, p.2)))
      | c :: r => if c.isDigit || c = '-' then jparseNum (c :: r) else none
      | [] => none

/-- Parse one-or-more comma-separated array elements up to `]`. -/
def jparseArrElems : Nat → List Char → Option (List JValue × List Char)
  | 0, _ => none
  | fuel + 1, l =>
      match jparseVal fuel l with
      | none => none
      | some (v, r) =>
          match skipWS r with
          | ',' :: r' => (jparseArrElems fuel r').map (fun p => (v :: p.1, p.2))
          | ']' :: r' => some ([v], r')
          | _ => none

/-- Parse one-or-more comma-separated object members up to a closing
brace. -/
def jparseObjMembers : Nat → List Char → Option (List (String × JValue) × List Char)
  | 0, _ => none
  | fuel + 1, l =>
      match skipWS l with
      | '"' :: r =>
          match jparseStr r with
          | none => none
          | some (k, r1) =>
              match skipWS r1 with
              | ':' :: r2 =>
                  match jparseVal fuel r2 with
                  | none => none
                  | some (v, r3) =>
                      match skipWS r3 with
                      | ',' :: r4 => (jparseObjMembers fuel r4).map (fun p => ((k, v) :: p.1, p.2))
                      | '}' :: r4 => some ([(k, v)], r4)
                      | _ => none
              | _ => none
      | _ => none

end

/-- Parse a whole string as one JSON value with nothing but whitespace
after it. -/
def jparse (s : String) : Option JValue :=
  match jparseVal (2 * s.length + 2) s.data with
  | some (v, r) => if skipWS r = [] then some v else none
  | none => none

/-- `json.Valid`. -/
def jsonValid (s : String) : Bool :=
  (jparse s).isSome

/-- `isJSONObj` from the source: `json.Unmarshal` of the bytes into a
`map[string]interface` succeeds, which accepts JSON objects and the JSON
literal `null`. -/
def isJSONObj (s : String) : Bool :=
  match jparse s with
  | some (.jobj _) => true
  | some .jnull => true
  | _ => false

/-- An entry of a type-keyed parser map (`map[reflect.Type]ParserFunc`):
either one of the two built-in type-specific parsers or a caller-supplied
custom parser identified by an index into the custom environment. -/
inductive ParserRef where
  | urlParser
  | durationParser
  | custom (id : Nat)

/-- The environment giving semantics to caller-supplied code: `parse id`
is the custom `ParserFunc` with index `id`, and `ut id` is the
`UnmarshalText` method of the named type `id` (as a function of the input
text, returning the receiver's new payload). -/
structure CEnv where
  parse : Nat → String → Except GoErr GoValue
  ut : Nat → String → Except GoErr String

/-- Run a type-keyed parser entry. `urlParser` wraps `url.Parse` (modelled
as failing exactly on ASCII control characters) and `durationParser` wraps
`time.ParseDuration`. -/
def runParser : ParserRef → CEnv → String → Except GoErr GoValue
  | .urlParser, _, s =>
      if s.data.any (fun c => c.toNat < 32) then .error (.customErr "unable parse URL")
      else .ok (.vURL s)
  | .durationParser, _, s => (parseDurationGo s).map .vDuration
  | .custom id, cenv, s => cenv.parse id s

/-- A type-keyed parser map, as an association list with the lookup/insert
semantics of a Go map. -/
abbrev TypeParserMap : Type := List (GoType × ParserRef)

/-- Go map lookup, keyed by type identity. -/
def lookupMap : TypeParserMap → GoType → Option ParserRef
  | [], _ => none
  | (k, pr) :: rest, t => if GoType.beq k t then some pr else lookupMap rest t

/-- Go map assignment `m[k] = v`: replace the existing entry or append. -/
def insertMap : TypeParserMap → GoType → ParserRef → TypeParserMap
  | [], k, v => [(k, v)]
  | (k', v') :: rest, k, v =>
      if GoType.beq k' k then (k, v) :: rest else (k', v') :: insertMap rest k v

/-- The merge loop of `ParseWithFuncs`: `for k, v := range funcMap`,
assigning each entry into the base map. -/
def mergeMap (base : TypeParserMap) (funcMap : TypeParserMap) : TypeParserMap :=
  funcMap.foldl (fun acc kv => insertMap acc kv.1 kv.2) base

/-- The initial state of the shared `defaultTypeParsers` map: entries for
`url.URL` and `time.Duration`. -/
def defaultTypeParsers : TypeParserMap :=
  [(.tURL, .urlParser), (.tDuration, .durationParser)]

/-- The built-in kind parser for one numeric kind, with the exact
`strconv` call of the source: note that the plain `int` and `uint` entries
parse with bit size 32. -/
def numParser : NumKind → String → Except GoErr GoValue
  | .int, v => (parseIntGo 32 v).map (.vNum .int)
  | .int8, v => (parseIntGo 8 v).map (.vNum .int8)
  | .int16, v => (parseIntGo 16 v).map (.vNum .int16)
  | .int32, v => (parseIntGo 32 v).map (.vNum .int32)
  | .int64, v => (parseIntGo 64 v).map (.vNum .int64)
  | .uint, v => (parseUintGo 32 v).map (fun n => .vNum .uint (Int.ofNat n))
  | .uint8, v => (parseUintGo 8 v).map (fun n => .vNum .uint8 (Int.ofNat n))
  | .uint16, v => (parseUintGo 16 v).map (fun n => .vNum .uint16 (Int.ofNat n))
  | .uint32, v => (parseUintGo 32 v).map (fun n => .vNum .uint32 (Int.ofNat n))
  | .uint64, v => (parseUintGo 64 v).map (fun n => .vNum .uint64 (Int.ofNat n))
  | .float32, v => (parseFloatGo 32 v).map (.vNum .float32)
  | .float64, v => (parseFloatGo 64 v).map (.vNum .float64)

/-- The `defaultBuiltInParsers` map, keyed by `reflect.Kind`: bool, string
and the twelve numeric kinds have entries; every other kind has none. -/
def defaultBuiltInParsers : GoKind → Option (String → Except GoErr GoValue)
  | .kBool => some (fun v => (parseBoolGo v).map .vBool)
  | .kString => some (fun v => .ok (.vString v))
  | .kNum k => some (numParser k)
  | .kPtr => none
  | .kSlice => none
  | .kStruct => none
  | .kOther => none

/-- `reflect.Value.Convert` to the destination type, as used after a
built-in kind parser: numeric results are retargeted at the destination
type (in particular `int64` results convert to `time.Duration`); all other
values convert to themselves. -/
def convertTo (t : GoType) (v : GoValue) : GoValue :=
  match t, v with
  | .tDuration, .vNum _ n => .vDuration n
  | .tNum k, .vNum _ n => .vNum k n
  | _, v => v

/-- The destination bit width of each numeric kind on the modelled 64-bit
platform: explicit widths for the sized kinds, 64 for `int` and `uint`. -/
def destBits : NumKind → Nat
  | .int => 64
  | .int8 => 8
  | .int16 => 16
  | .int32 => 32
  | .int64 => 64
  | .uint => 64
  | .uint8 => 8
  | .uint16 => 16
  | .uint32 => 32
  | .uint64 => 64
  | .float32 => 32
  | .float64 => 64

/-- Whether a numeric kind is a signed integer kind. -/
def isSignedInt : NumKind → Bool
  | .int | .int8 | .int16 | .int32 | .int64 => true
  | _ => false

/-- Whether a numeric kind is an unsigned integer kind. -/
def isUnsignedInt : NumKind → Bool
  | .uint | .uint8 | .uint16 | .uint32 | .uint64 => true
  | _ => false

/-- Decode one JSON member value into a field of the given type
(`encoding/json` semantics restricted to flat members): `null` leaves the
field untouched, strings/bools/numbers must match the destination, numbers
overflowing the destination width are an error, and nested objects/arrays
are not modelled (they produce a decode error). -/
def decodeJMember (t : GoType) (jv : JValue) (cur : GoValue) : Except GoErr GoValue :=
  match jv with
  | .jnull => .ok cur
  | .jstr s =>
      match t with
      | .tString => .ok (.vString s)
      | _ => .error (.jsonError "cannot unmarshal string")
  | .jbool b =>
      match t with
      | .tBool => .ok (.vBool b)
      | _ => .error (.jsonError "cannot unmarshal bool")
  | .jnum neg ip nonInt =>
      let v : Int := if neg then -(ip : Int) else (ip : Int)
      match t with
      | .tNum k =>
          if isSignedInt k then
            if nonInt then .error (.jsonError "cannot unmarshal number")
            else if -(2 ^ (destBits k - 1) : Int) ≤ v ∧ v < 2 ^ (destBits k - 1) then
              .ok (.vNum k v)
            else .error (.jsonError "number overflows")
          else if isUnsignedInt k then
            if nonInt ∨ neg then .error (.jsonError "cannot unmarshal number")
            else if v < 2 ^ destBits k then .ok (.vNum k v)
            else .error (.jsonError "number overflows")
          else
            if nonInt then .error (.jsonError "fractional floats not modelled")
            else .ok (.vNum k v)
      | .tDuration =>
          if nonInt then .error (.jsonError "cannot unmarshal number")
          else if -(2 ^ 63 : Int) ≤ v ∧ v < 2 ^ 63 then .ok (.vDuration v)
          else .error (.jsonError "number overflows")
      | _ => .error (.jsonError "cannot unmarshal number")
  | .jarr _ => .error (.jsonError "nested JSON decoding not modelled")
  | .jobj _ => .error (.jsonError "nested JSON decoding not modelled")

/-- Store one JSON object member into the matching exported struct field
(members with no matching field are ignored, as `encoding/json` does). -/
def setJSONField : FieldList → ValueList → String → JValue → Except GoErr ValueList
  | .nil, vals, _, _ => .ok vals
  | .cons _ _, .nil, _, _ => .ok .nil
  | .cons f fs, .cons v vs, k, jv =>
      if f.name = k ∧ f.exported then
        (decodeJMember f.ty jv v).map (fun v' => .cons v' vs)
      else
        (setJSONField fs vs k jv).map (fun vs' => .cons v vs')

/-- `json.Unmarshal` of an object into a fresh zero struct value. -/
def jsonDecodeStruct (fs : FieldList) (members : List (String × JValue)) :
    Except GoErr ValueList :=
  members.foldlM (fun vals kv => setJSONField fs vals kv.1 kv.2) (zeroFields fs)

/-- The pointee allocation performed at the top of `asTextUnmarshaler`:
a nil pointer field is set to a fresh zero pointee before anything else. -/
def allocPtr : GoValue → GoValue
  | .vPtrNil t => .vPtrSome t (zeroValue t)
  | v => v

/-- The text-unmarshaler resolved by `asTextUnmarshaler` after allocation:
for a pointer field the check is on the pointee type, otherwise on the
address of the (addressable) field itself. Returns the named-type id whose
`UnmarshalText` will run, or `none`. -/
def tuIdOf (f : GoField) (fv : GoValue) : Option Nat :=
  match fv with
  | .vPtrSome (.tNamed id true) _ => some id
  | .vPtrSome _ _ => none
  | .vPtrNil (.tNamed id true) => some id
  | .vPtrNil _ => none
  | _ =>
      match f.ty with
      | .tNamed id true => some id
      | _ => none

/-- Write the payload produced by `UnmarshalText` back through the
unmarshaler: into the pointee for pointer fields, else into the field. -/
def tuWrite (fv : GoValue) (id : Nat) (payload : String) : GoValue :=
  match fv with
  | .vPtrSome t _ => .vPtrSome t (.vNamed id payload)
  | _ => .vNamed id payload

/-- `fieldee.Set` seen from the field: through the pointer for pointer
fields (`sf.Type.Kind() == Ptr`), else directly. -/
def setWrap (f : GoField) (val : GoValue) : GoValue :=
  match f.ty with
  | .tPtr e => .vPtrSome e val
  | _ => val

/-- Fuel-based worker for `strings.Split`: scan for non-overlapping
occurrences of the (non-empty) separator, accumulating the current part in
reverse. -/
def splitAux (sep : List Char) : Nat → List Char → List Char → List (List Char)
  | _, acc, [] => [acc.reverse]
  | 0, acc, l => [acc.reverse ++ l]
  | fuel + 1, acc, c :: rest =>
      if sep.isPrefixOf (c :: rest) then
        acc.reverse :: splitAux sep fuel [] ((c :: rest).drop sep.length)
      else
        splitAux sep fuel (c :: acc) rest

/-- `strings.Split` for a non-empty separator (the engine always passes a
non-empty one; an empty separator is mapped to the whole string). -/
def stringsSplit (s sep : String) : List String :=
  if sep = "" then [s]
  else (splitAux sep.data (s.length + 1) [] s.data).map String.mk

/-- The slice separator: the `envSeparator` tag, defaulting to `","`. -/
def sepOf (f : GoField) : String :=
  let s := tagGet f.tags "envSeparator"
  if s = "" then "," else s

/-- The element-building loop of `handleSlice`: parse each part, convert to
the (pointer-stripped) element type, and box pointer-typed elements in a
fresh allocation. -/
def buildSlice (φ : String → Except GoErr GoValue) (typee elemT : GoType) :
    List String → Except GoErr ValueList
  | [] => .ok .nil
  | part :: rest =>
      match φ part with
      | .error e => .error e
      | .ok r =>
          (buildSlice φ typee elemT rest).map (fun xs =>
            match elemT with
            | .tPtr _ => .cons (.vPtrSome typee (convertTo typee r)) xs
            | _ => .cons (convertTo typee r) xs)

/-- `parseTextUnmarshalers`: one fresh instance per part; pointer-typed
elements keep the heap allocation, value-typed elements are unmarshaled and
copied into the slice. -/
def buildTUSlice (cenv : CEnv) (id : Nat) (typee elemT : GoType) :
    List String → Except GoErr ValueList
  | [] => .ok .nil
  | part :: rest =>
      match cenv.ut id part with
      | .error e => .error e
      | .ok payload =>
          (buildTUSlice cenv id typee elemT rest).map (fun xs =>
            match elemT with
            | .tPtr _ => .cons (.vPtrSome typee (.vNamed id payload)) xs
            | _ => .cons (.vNamed id payload) xs)

/-- `handleSlice`: split on the configured separator, then convert each
part with the element's text-unmarshaler, type-keyed parser or built-in
kind parser, building a fresh slice that replaces the field. -/
def handleSlice (g : TypeParserMap) (cenv : CEnv) (f : GoField) (fv : GoValue)
    (value : String) : Option GoErr × GoValue :=
  let parts := stringsSplit value (sepOf f)
  match f.ty with
  | .tSlice elemT =>
      let typee := baseType elemT
      match typee with
      | .tNamed id true =>
          (match buildTUSlice cenv id typee elemT parts with
           | .error e => (some (.parseErr f.name f.ty e), fv)
           | .ok xs => (none, .vSlice elemT xs))
      | _ =>
          let φ : Option (String → Except GoErr GoValue) :=
            match lookupMap g typee with
            | some pr => some (runParser pr cenv)
            | none => defaultBuiltInParsers typee.kind
          match φ with
          | none => (some (.noParser f.name f.ty), fv)
          | some φ =>
              match buildSlice φ typee elemT parts with
              | .error e => (some (.parseErr f.name f.ty e), fv)
              | .ok xs => (none, .vSlice elemT xs)
  | _ => (some (.noParser f.name f.ty), fv)

/-- The non-slice part of `set`'s cascade: text-unmarshaler (with
nil-pointer allocation), type-keyed parser map, built-in kind parser,
JSON-object decoding for struct kinds, and otherwise the no-parser
error. On an error the field keeps any allocation already performed. -/
def setNonSlice (g : TypeParserMap) (cenv : CEnv) (f : GoField) (fv : GoValue)
    (value : String) : Option GoErr × GoValue :=
    let fv1 := allocPtr fv
    match tuIdOf f fv with
    | some id =>
        (match cenv.ut id value with
         | .error e => (some (.parseErr f.name f.ty e), fv1)
         | .ok payload => (none, tuWrite fv1 id payload))
    | none =>
        let typee := baseType f.ty
        match lookupMap g typee with
        | some pr =>
            (match runParser pr cenv value with
             | .error e => (some (.parseErr f.name f.ty e), fv1)
             | .ok val => (none, setWrap f val))
        | none =>
            match defaultBuiltInParsers typee.kind with
            | some bp =>
                (match bp value with
                 | .error e => (some (.parseErr f.name f.ty e), fv1)
                 | .ok val => (none, setWrap f (convertTo typee val)))
            | none =>
                if typee.kind = .kStruct then
                  if jsonValid value && isJSONObj value then
                    match typee with
                    | .tStruct n flds =>
                        (match jparse value with
                         | some (.jobj members) =>
                             (match jsonDecodeStruct flds members with
                              | .error e => (some e, fv1)
                              | .ok vals => (none, setWrap f (.vStruct n vals)))
                         | some .jnull => (none, setWrap f (.vStruct n (zeroFields flds)))
                         | _ => (some (.jsonError "unreachable"), fv1))
                    | _ => (none, setWrap f (zeroValue typee))
                  else (some (.noParser f.name f.ty), fv1)
                else (some (.noParser f.name f.ty), fv1)

/-- `set`: dispatch a non-empty resolved string into the field, following
the source's cascade — slice fields go to `handleSlice`, everything else
to the `setNonSlice` cascade. -/
def set (g : TypeParserMap) (cenv : CEnv) (f : GoField) (fv : GoValue)
    (value : String) : Option GoErr × GoValue :=
  match fv with
  | .vSlice et xs => handleSlice g cenv f (.vSlice et xs) value
  | _ => setNonSlice g cenv f fv value

/-- A value provider: `Provide(field) (string, error)`. A non-nil error is
modelled by the `error` branch (the engine discards the accompanying
string). -/
abbrev ProviderFn : Type := GoField → Except GoErr String

/-- One field-walk (`doParse`) over parallel field/value lists, threading
the shared type-parser map (the `funcMap` argument of the source aliases
the shared `defaultTypeParsers` object, so the walk carries a single map).
Per field, in source order: skip unsettable fields; recurse into any
non-nil pointer via `ParseWithFuncs` (inlined: a self-merge of the shared
map, then the nested walk — pointees that are not structs fail with
`ErrNotAStructPtr`); recurse into fields of unnamed struct type via `Parse`
(inlined: merging an empty map, i.e. the map unchanged); otherwise consult
the provider, recurse into struct-kind fields on an empty value (a walk
into `url.URL`'s fields is modelled as a no-op), skip other fields on an
empty value, and `set` non-empty values. The first error aborts, keeping
mutations already made. -/
def doParse (cenv : CEnv) (p : ProviderFn) :
    TypeParserMap → FieldList → ValueList → Option GoErr × ValueList × TypeParserMap
  | g, .nil, vals => (none, vals, g)
  | g, .cons _ _, .nil => (none, .nil, g)
  | g, .cons f fs, .cons fv rest =>
      let step : Option GoErr × GoValue × TypeParserMap :=
        if f.exported = false then (none, fv, g)
        else
          match fv with
          | .vPtrSome (.tStruct n flds) (.vStruct n' ivals) =>
              let g2 := mergeMap g g
              (match doParse cenv p g2 flds ivals with
               | (e, ivals', g3) => (e, .vPtrSome (.tStruct n flds) (.vStruct n' ivals'), g3))
          | .vPtrSome .tURL u =>
              (none, .vPtrSome .tURL u, mergeMap g g)
          | .vPtrSome et inner => (some .notAStructPtr, .vPtrSome et inner, g)
          | .vStruct n' ivals =>
              match f.ty with
              | .tStruct "" flds =>
                  (match doParse cenv p g flds ivals with
                   | (e, ivals', g3) => (e, .vStruct n' ivals', g3))
              | _ =>
                  match p f with
                  | .error e => (some e, .vStruct n' ivals, g)
                  | .ok value =>
                      if value = "" then
                        match f.ty with
                        | .tStruct _ flds =>
                            (match doParse cenv p g flds ivals with
                             | (e, ivals', g3) => (e, .vStruct n' ivals', g3))
                        | _ => (none, .vStruct n' ivals, g)
                      else
                        match set g cenv f (.vStruct n' ivals) value with
                        | (e, fv') => (e, fv', g)
          | fv =>
              match p f with
              | .error e => (some e, fv, g)
              | .ok value =>
                  if value = "" then (none, fv, g)
                  else
                    match set g cenv f fv value with
                    | (e, fv') => (e, fv', g)
      match step with
      | (some e, fv', g') => (some e, .cons fv' rest, g')
      | (none, fv', g') =>
          match doParse cenv p g' fs rest with
          | (e, rest', g'') => (e, .cons fv' rest', g'')

/-- `ParseWithFuncs`: validate that the argument is a non-nil pointer to a
struct (else `ErrNotAStructPtr`, with nothing merged and no provider
consulted), merge the caller's map into the shared map, and run the walk. -/
def parseWithFuncs (g : TypeParserMap) (cenv : CEnv) (funcMap : TypeParserMap)
    (p : ProviderFn) (v : GoValue) : Option GoErr × GoValue × TypeParserMap :=
  match v with
  | .vPtrSome (.tStruct n flds) (.vStruct n' vals) =>
      let g' := mergeMap g funcMap
      (match doParse cenv p g' flds vals with
       | (e, vals', g'') => (e, .vPtrSome (.tStruct n flds) (.vStruct n' vals'), g''))
  | .vPtrSome .tURL u =>
      (none, .vPtrSome .tURL u, mergeMap g funcMap)
  | v => (some .notAStructPtr, v, g)

/-- `Parse`: one `ParseWithFuncs` walk with an empty custom map per
provider, in list order, stopping at the first error. -/
def parse (cenv : CEnv) :
    TypeParserMap → GoValue → List ProviderFn → Option GoErr × GoValue × TypeParserMap
  | g, v, [] => (none, v, g)
  | g, v, p :: rest =>
      match parseWithFuncs g cenv [] p v with
      | (some e, v', g') => (some e, v', g')
      | (none, v', g') => parse cenv g' v' rest

/-- Whether a value is a non-nil pointer to a struct-kind value (the
argument shape `ParseWithFuncs` accepts). -/
def isPtrToStructVal : GoValue → Bool
  | .vPtrSome (.tStruct _ _) (.vStruct _ _) => true
  | .vPtrSome .tURL _ => true
  | _ => false

/-- The process environment, as a key/value list (`os.LookupEnv`). -/
abbrev Env : Type := List (String × String)

/-- `os.LookupEnv`. -/
def lookupEnv (env : Env) (k : String) : Option String :=
  (env.find? (fun kv => kv.1 == k)).map Prod.snd

/-- `getOr`: the variable's value, or the default when unset. -/
def getOr (env : Env) (key dflt : String) : String :=
  match lookupEnv env key with
  | some v => v
  | none => dflt

/-- `getRequired`: the value and a nil error when the variable is set,
else an empty value and the required-missing error. -/
def getRequired (env : Env) (key : String) : String × Option GoErr :=
  match lookupEnv env key with
  | some v => (v, none)
  | none => ("", some (.requiredMissing key))

/-- `parseKeyForOption`: split the tag value on commas into the key and
the option list. -/
def parseKeyForOption (s : String) : String × List String :=
  match stringsSplit s "," with
  | [] => ("", [])
  | k :: rest => (k, rest)

/-- `strings.ToLower`, restricted to ASCII. -/
def toLowerGo (s : String) : String :=
  String.mk (s.data.map Char.toLower)

/-- Characters `os.Expand` treats as part of a `$name` reference. -/
def isShellNameChar (c : Char) : Bool :=
  c.isAlphanum || c = '_'

/-- `os.ExpandEnv` on a character list, fuel-based: `$\x7bname\x7d` and
`$name` references are replaced by the variable's value (empty when
unset), without rescanning the substituted text; a `$` that starts no
reference is kept, and an unclosed brace reference is kept verbatim. -/
def expandChars (env : Env) : Nat → List Char → List Char
  | 0, l => l
  | _ + 1, [] => []
  | fuel + 1, '$' :: '{' :: rest =>
      let name := rest.takeWhile (fun c => c ≠ '}')
      (match rest.dropWhile (fun c => c ≠ '}') with
       | '}' :: tail =>
           ((lookupEnv env (String.mk name)).getD "").data ++ expandChars env fuel tail
       | _ => '$' :: '{' :: rest)
  | fuel + 1, '$' :: rest =>
      let name := rest.takeWhile isShellNameChar
      if name = [] then '$' :: expandChars env fuel rest
      else
        ((lookupEnv env (String.mk name)).getD "").data ++
          expandChars env fuel (rest.drop name.length)
  | fuel + 1, c :: rest => c :: expandChars env fuel rest

/-- `os.ExpandEnv`. -/
def expandEnv (env : Env) (s : String) : String :=
  String.mk (expandChars env (s.length + 1) s.data)

/-- One iteration of the option loop in `envProvider.Provide`: an empty
token leaves the state, `required` replaces both the value and the error
with `getRequired`'s results, and any other token replaces the error with
the unsupported-option error while keeping the value. -/
def stepOpt (env : Env) (key : String) (acc : String × Option GoErr) (opt : String) :
    String × Option GoErr :=
  if opt = "" then acc
  else if opt = "required" then getRequired env key
  else (acc.1, some (.unsupportedOpt opt))

/-- The whole option loop. -/
def runOpts (env : Env) (key : String) (acc : String × Option GoErr)
    (opts : List String) : String × Option GoErr :=
  opts.foldl (stepOpt env key) acc

/-- `envProvider.Provide` for a provider with source-key tag `tag`: read
the tag value as `key[,option]*`, resolve the variable with the
`envDefault` fallback, apply `$\x7bVAR\x7d` expansion when `envExpand` is
`"true"`, then run the option loop, and return the error if one is left,
else the value. -/
def envProvide (tag : String) (env : Env) (f : GoField) : Except GoErr String :=
  let kv := tagGet f.tags tag
  let key := (parseKeyForOption kv).1
  let opts := (parseKeyForOption kv).2
  let dflt := tagGet f.tags "envDefault"
  let val := getOr env key dflt
  let val := if toLowerGo (tagGet f.tags "envExpand") = "true" then expandEnv env val else val
  match runOpts env key (val, none) opts with
  | (_, some e) => .error e
  | (v, none) => .ok v

/-- A custom environment with no custom parsers and no text-unmarshalers,
for concrete instances that use neither. -/
def cenvNone : CEnv :=
  ⟨fun _ _ => .error (.customErr "no custom parser"),
   fun _ _ => .error (.customErr "no text unmarshaler")⟩

/-- A provider that resolves every field to the empty string. -/
def provEmpty : ProviderFn := fun _ => .ok ""

/-- C2 (code bug in the source, matching the risk the spec flags): calling
`ParseWithFuncs` with a custom parser for a type `T` appends that entry to
the shared `defaultTypeParsers` map — here shown on an empty struct, where
the walk does nothing else — so the entry persists after the call, where the
`T` lookup previously missed, and a later independent call that looks `T` up
in the shared map (as `set` does after `Parse`'s empty-map merge) now runs
the leaked custom parser. -/
theorem parseWithFuncs_mutates_shared_default_map :
    (parseWithFuncs defaultTypeParsers cenvNone [(.tNamed 7 false, .custom 3)] provEmpty
        (.vPtrSome (.tStruct "S" .nil) (.vStruct "S" .nil))).2.2
      = defaultTypeParsers ++ [(.tNamed 7 false, .custom 3)]
    ∧ lookupMap defaultTypeParsers (.tNamed 7 false) = none
    ∧ lookupMap (defaultTypeParsers ++ [(.tNamed 7 false, .custom 3)]) (.tNamed 7 false)
        = some (.custom 3)
    ∧ set (defaultTypeParsers ++ [(.tNamed 7 false, .custom 3)])
        ⟨fun id s => if id = 3 ∧ s = "x" then .ok (.vNamed 7 "LEAK")
                     else .error (.customErr "no custom parser"),
         fun _ _ => .error (.customErr "no text unmarshaler")⟩
        (.mk "F" [] true (.tNamed 7 false)) (.vNamed 7 "") "x"
      = (none, .vNamed 7 "LEAK") :=
  ⟨rfl, rfl, rfl, rfl⟩

/-- C4, counterexample: with an empty provider list, `Parse` runs zero
walks and returns a nil error even for an argument that is not a pointer
to a struct — it does not fail as the claim states for every provider
list. -/
theorem parse_no_providers_skips_validation :
    isPtrToStructVal (.vNum .int 3) = false
    ∧ parse cenvNone defaultTypeParsers (.vNum .int 3) []
        = (none, .vNum .int 3, defaultTypeParsers) :=
  ⟨rfl, rfl⟩

/-- C4, amended: for every argument that is not a non-nil pointer to a
struct and every NON-EMPTY provider list, `Parse` fails with the
not-a-struct-pointer error before consulting any provider (the result does
not depend on the providers), leaving the argument and the shared parser
map untouched; `ParseWithFuncs` behaves the same for every custom map. -/
theorem parse_requires_struct_pointer (g : TypeParserMap) (cenv : CEnv)
    (v : GoValue) (custom : TypeParserMap) (p : ProviderFn) (rest : List ProviderFn)
    (h : isPtrToStructVal v = false) :
    parseWithFuncs g cenv custom p v = (some .notAStructPtr, v, g)
    ∧ parse cenv g v (p :: rest) = (some .notAStructPtr, v, g) := by
  have h1 : parseWithFuncs g cenv custom p v = (some .notAStructPtr, v, g) := by
    cases v with
    | vPtrSome et pv =>
        cases et <;> cases pv <;> simp_all [parseWithFuncs, isPtrToStructVal]
    | _ => rfl
  have h2 : parseWithFuncs g cenv [] p v = (some .notAStructPtr, v, g) := by
    cases v with
    | vPtrSome et pv =>
        cases et <;> cases pv <;> simp_all [parseWithFuncs, isPtrToStructVal]
    | _ => rfl
  exact ⟨h1, by simp [parse, h2]⟩

/-- C4, witness for the amended theorem at a concrete non-struct-pointer
argument. -/
theorem parse_requires_struct_pointer_witness :
    isPtrToStructVal (.vBool true) = false
    ∧ parse cenvNone defaultTypeParsers (.vBool true) [provEmpty]
        = (some .notAStructPtr, .vBool true, defaultTypeParsers) :=
  ⟨rfl, (parse_requires_struct_pointer defaultTypeParsers cenvNone (.vBool true)
      [] provEmpty [] rfl).2⟩

/-- The option loop leaves its state unchanged over trailing empty
tokens. -/
theorem runOpts_all_empty (env : Env) (key : String) (acc : String × Option GoErr)
    (post : List String) (h : ∀ u ∈ post, u = "") :
    runOpts env key acc post = acc := by
  induction post with
  | nil => rfl
  | cons u us ih =>
      have hu : u = "" := h u (by simp)
      have hus : ∀ u' ∈ us, u' = "" := fun u' hu' => h u' (by simp [hu'])
      simp [runOpts, stepOpt, hu] at ih ⊢
      exact ih hus

/-- C9, counterexample: a field tagged `env:"KEY,bogus,required"` carries
the unrecognized token `bogus`, yet with `KEY` set the provider returns the
value with no error — the later `required` option overwrites the
unsupported-token error. -/
theorem envProvide_unsupported_token_swallowed :
    envProvide "env" [("KEY", "x")]
        (.mk "S" [("env", "KEY,bogus,required")] true .tString) = .ok "x" :=
  rfl

/-- C9, amended: an unrecognized token in the option list produces the
error naming that token whenever every later token is empty (in
particular when it is the last token), regardless of its position, of the
initial value/error state, and of whether a value is available; a
`required` token placed after it overwrites the error with the
required-lookup outcome instead. Concrete instances: the token errors when
it follows `required` even though the variable is set, and when no value
is available at all. -/
theorem envProvide_unsupported_token_errors (env : Env) (key : String)
    (acc : String × Option GoErr) (pre post : List String) (t : String)
    (ht1 : t ≠ "") (ht2 : t ≠ "required") (hpost : ∀ u ∈ post, u = "") :
    (runOpts env key acc (pre ++ t :: post)).2 = some (.unsupportedOpt t)
    ∧ envProvide "env" [("KEY", "x")]
        (.mk "S" [("env", "KEY,required,bogus")] true .tString)
        = .error (.unsupportedOpt "bogus")
    ∧ envProvide "env" []
        (.mk "S" [("env", "KEY,bogus")] true .tString)
        = .error (.unsupportedOpt "bogus") := by
  refine ⟨?_, rfl, rfl⟩
  have hfold : runOpts env key acc (pre ++ t :: post)
      = runOpts env key (stepOpt env key (runOpts env key acc pre) t) post := by
    simp [runOpts, List.foldl_append]
  rw [hfold, runOpts_all_empty env key _ post hpost]
  simp [stepOpt, ht1, ht2]

/-- C9, witness: the amended theorem applied with the token `bogus` in the
middle of the option list. -/
theorem envProvide_unsupported_token_errors_witness :
    (runOpts [("K", "v")] "K" ("v", none) (["required"] ++ "bogus" :: [""])).2
      = some (.unsupportedOpt "bogus") :=
  (envProvide_unsupported_token_errors [("K", "v")] "K" ("v", none)
      ["required"] [""] "bogus" (by decide) (by decide)
      (fun u hu => by simpa using hu)).1

/-- C10: in `envProvider.Provide` the `required` option runs after default
substitution and after `envExpand` expansion and overwrites their result
with the raw `os.LookupEnv` value: on a field tagged
`env:"K,required"`, `envDefault`, `envExpand:"true"`, a set variable `K`
yields exactly the raw looked-up value with the expansion discarded,
whereas the same field without `required` yields the expanded value. -/
theorem envProvide_required_discards_expansion (env : Env) (raw d : String)
    (h : lookupEnv env "K" = some raw) :
    envProvide "env" env
        (.mk "S" [("env", "K,required"), ("envDefault", d), ("envExpand", "true")]
          true .tString) = .ok raw
    ∧ envProvide "env" env
        (.mk "S" [("env", "K"), ("envDefault", d), ("envExpand", "true")]
          true .tString) = .ok (expandEnv env raw) := by
  have hs1 : parseKeyForOption "K,required" = ("K", ["required"]) := rfl
  have hs2 : parseKeyForOption "K" = ("K", []) := rfl
  constructor
  · simp [envProvide, tagGet, GoField.tags, hs1, getOr, h, runOpts, stepOpt,
      getRequired, toLowerGo]
  · simp [envProvide, tagGet, GoField.tags, hs2, getOr, h, runOpts, stepOpt,
      toLowerGo]

/-- C10, witness: the theorem applied to a concrete environment where `K`
holds a reference that expansion would rewrite. -/
theorem envProvide_required_discards_expansion_witness :
    envProvide "env" [("K", "${HOME}/tmp"), ("HOME", "/root")]
        (.mk "S" [("env", "K,required"), ("envDefault", "d"), ("envExpand", "true")]
          true .tString) = .ok "${HOME}/tmp"
    ∧ envProvide "env" [("K", "${HOME}/tmp"), ("HOME", "/root")]
        (.mk "S" [("env", "K"), ("envDefault", "d"), ("envExpand", "true")]
          true .tString) = .ok (expandEnv [("K", "${HOME}/tmp"), ("HOME", "/root")] "${HOME}/tmp") :=
  envProvide_required_discards_expansion [("K", "${HOME}/tmp"), ("HOME", "/root")]
    "${HOME}/tmp" "d" rfl

/-- The bit size each built-in numeric parser passes to `strconv`, read off
the source entries: the explicitly sized kinds use their own width, but the
plain `int` and `uint` entries parse with bit size 32. -/
def parserBits : NumKind → Nat
  | .int => 32
  | .int8 => 8
  | .int16 => 16
  | .int32 => 32
  | .int64 => 64
  | .uint => 32
  | .uint8 => 8
  | .uint16 => 16
  | .uint32 => 32
  | .uint64 => 64
  | .float32 => 32
  | .float64 => 64

/-- C6, counterexample: `2147483648` (2^31) is within the 64-bit
destination range of a plain `int` field, yet the built-in `int` parser
(`strconv.ParseInt(v, 10, 32)`) rejects it, so `set` returns a
`ParseError` instead of the parsed value the claim promises for a literal
within the destination width's range. -/
theorem int_literal_in_dest_range_rejected :
    (-(2 ^ (destBits .int - 1) : Int) ≤ 2147483648
        ∧ (2147483648 : Int) < 2 ^ (destBits .int - 1))
    ∧ set defaultTypeParsers cenvNone (.mk "N" [] true (.tNum .int)) (.vNum .int 0)
        "2147483648"
      = (some (.parseErr "N" (.tNum .int) .outOfRange), .vNum .int 0) :=
  ⟨by norm_num [destBits], rfl⟩

/-- C6, amended: every built-in numeric parser uses a fixed `strconv` bit
size; for the explicitly sized kinds (and the float kinds) that size
matches the destination width, but the plain `int` and `uint` parsers use
32 bits against a 64-bit destination. For the integer kinds, a decimal
literal within the PARSER's bit-size range yields a field exactly equal to
the parsed value, and a literal outside it yields a `ParseError` (never a
silently truncated value). -/
theorem builtin_numeric_fixed_widths :
    (∀ k : NumKind, k ≠ .int → k ≠ .uint → parserBits k = destBits k)
    ∧ parserBits .int = 32 ∧ destBits .int = 64
    ∧ parserBits .uint = 32 ∧ destBits .uint = 64
    ∧ (∀ (k : NumKind) (s : String) (v : Int),
        isSignedInt k = true → parseIntCore s = some v →
        ((-(2 ^ (parserBits k - 1) : Int) ≤ v ∧ v < 2 ^ (parserBits k - 1)) →
          set defaultTypeParsers cenvNone (.mk "N" [] true (.tNum k)) (.vNum k 0) s
            = (none, .vNum k v))
        ∧ (¬(-(2 ^ (parserBits k - 1) : Int) ≤ v ∧ v < 2 ^ (parserBits k - 1)) →
          set defaultTypeParsers cenvNone (.mk "N" [] true (.tNum k)) (.vNum k 0) s
            = (some (.parseErr "N" (.tNum k) .outOfRange), .vNum k 0)))
    ∧ (∀ (k : NumKind) (s : String) (n : Nat),
        isUnsignedInt k = true → parseUintCore s = some n →
        ((n < 2 ^ parserBits k) →
          set defaultTypeParsers cenvNone (.mk "N" [] true (.tNum k)) (.vNum k 0) s
            = (none, .vNum k (Int.ofNat n)))
        ∧ (¬(n < 2 ^ parserBits k) →
          set defaultTypeParsers cenvNone (.mk "N" [] true (.tNum k)) (.vNum k 0) s
            = (some (.parseErr "N" (.tNum k) .outOfRange), .vNum k 0))) := by
  have hset : ∀ (k : NumKind) (s : String),
      set defaultTypeParsers cenvNone (.mk "N" [] true (.tNum k)) (.vNum k 0) s
        = (match numParser k s with
           | .error e => (some (.parseErr "N" (.tNum k) e), .vNum k 0)
           | .ok val => (none, convertTo (.tNum k) val)) := fun _ _ => rfl
  refine ⟨by intro k h1 h2; cases k <;> simp_all [parserBits, destBits],
    rfl, rfl, rfl, rfl, ?_, ?_⟩
  · intro k s v hk hparse
    cases k <;> simp only [isSignedInt] at hk <;> try exact absurd hk (by decide)
    all_goals {
      refine ⟨fun hr => ?_, fun hr => ?_⟩ <;>
        simp only [parserBits] at hr <;>
        rw [hset] <;>
        simp only [numParser, parseIntGo, hparse] <;>
        first
        | (rw [if_pos hr]; simp [Except.map, convertTo])
        | (rw [if_neg hr]; simp [Except.map])
    }
  · intro k s n hk hparse
    cases k <;> simp only [isUnsignedInt] at hk <;> try exact absurd hk (by decide)
    all_goals {
      refine ⟨fun hr => ?_, fun hr => ?_⟩ <;>
        simp only [parserBits] at hr <;>
        rw [hset] <;>
        simp only [numParser, parseUintGo, hparse] <;>
        first
        | (rw [if_pos hr]; simp [Except.map, convertTo])
        | (rw [if_neg hr]; simp [Except.map])
    }

/-- C6, witness: the amended theorem at `int8` with the in-range literal
`"100"` and the `uint8` out-of-range literal `"300"`. -/
theorem builtin_numeric_fixed_widths_witness :
    set defaultTypeParsers cenvNone (.mk "N" [] true (.tNum .int8)) (.vNum .int8 0) "100"
      = (none, .vNum .int8 100)
    ∧ set defaultTypeParsers cenvNone (.mk "N" [] true (.tNum .uint8)) (.vNum .uint8 0) "300"
      = (some (.parseErr "N" (.tNum .uint8) .outOfRange), .vNum .uint8 0) :=
  ⟨(builtin_numeric_fixed_widths.2.2.2.2.2.1 .int8 "100" 100 rfl rfl).1 (by decide),
   (builtin_numeric_fixed_widths.2.2.2.2.2.2 .uint8 "300" 300 rfl rfl).2 (by decide)⟩

/-- String values as a slice element list. -/
def toVStrings : List String → ValueList
  | [] => .nil
  | s :: rest => .cons (.vString s) (toVStrings rest)

/-- The slice-building loop maps the identity string parser over the
parts. -/
theorem buildSlice_strings (parts : List String) :
    buildSlice (fun v => .ok (.vString v)) .tString .tString parts
      = .ok (toVStrings parts) := by
  induction parts with
  | nil => rfl
  | cons p rest ih => simp [buildSlice, ih, toVStrings, convertTo, Except.map]

/-- C8: a slice field with a non-empty resolved string is split on the
field's configured separator (the `envSeparator` tag, defaulting to `,`)
and fully replaced, in split order, independently of its prior contents;
each part is converted independently by the element parser (shown with
`time.Duration` elements); and a slice field whose resolved value is empty
never reaches the slice path — the walk leaves it unchanged with no
error. -/
theorem slice_fields_replaced (tags : List (String × String)) (old : ValueList)
    (value : String) (cenv : CEnv) (fv : GoValue) (et : GoType) (xs : ValueList)
    (f2 : GoField) (p : ProviderFn) (h2 : f2.exported = true)
    (hp : p f2 = .ok "") :
    set defaultTypeParsers cenv (.mk "H" tags true (.tSlice .tString))
        (.vSlice .tString old) value
      = (none, .vSlice .tString
          (toVStrings (stringsSplit value (sepOf (.mk "H" tags true (.tSlice .tString))))))
    ∧ (∀ old2 : ValueList,
        set defaultTypeParsers cenv (.mk "D" [] true (.tSlice .tDuration))
            (.vSlice .tDuration old2) "1s,2s"
          = (none, .vSlice .tDuration
              (.cons (.vDuration 1000000000) (.cons (.vDuration 2000000000) .nil))))
    ∧ (fv = .vSlice et xs →
        doParse cenv p defaultTypeParsers (.cons f2 .nil) (.cons fv .nil)
          = (none, .cons fv .nil, defaultTypeParsers)) := by
  refine ⟨?_, fun old2 => rfl, fun hfv => ?_⟩
  · simp [set, handleSlice, GoField.ty, GoField.name, typeHasTU, baseType, lookupMap,
      GoType.beq, defaultBuiltInParsers, GoType.kind, buildSlice_strings]
  · subst hfv
    cases f2 with
    | mk n tgs ex ty => simp_all [doParse, GoField.exported]

/-- C8, witness: splitting `"h1:h2"` on the `envSeparator` tag `":"`
replaces the prior contents with `["h1", "h2"]`. -/
theorem slice_fields_replaced_witness :
    set defaultTypeParsers cenvNone
        (.mk "H" [("envSeparator", ":")] true (.tSlice .tString))
        (.vSlice .tString (.cons (.vString "old") .nil)) "h1:h2"
      = (none, .vSlice .tString (.cons (.vString "h1") (.cons (.vString "h2") .nil)))
    ∧ doParse cenvNone provEmpty defaultTypeParsers
        (.cons (.mk "X" [] true (.tSlice .tString)) .nil)
        (.cons (.vSlice .tString (.cons (.vString "old") .nil)) .nil)
      = (none, .cons (.vSlice .tString (.cons (.vString "old") .nil)) .nil,
          defaultTypeParsers) :=
  ⟨((slice_fields_replaced [("envSeparator", ":")] (.cons (.vString "old") .nil)
      "h1:h2" cenvNone (.vSlice .tString .nil) .tString .nil
      (.mk "X" [] true (.tSlice .tString)) provEmpty rfl rfl).1).trans (by rfl),
   (slice_fields_replaced [("envSeparator", ":")] (.cons (.vString "old") .nil)
      "h1:h2" cenvNone (.vSlice .tString (.cons (.vString "old") .nil)) .tString
      (.cons (.vString "old") .nil)
      (.mk "X" [] true (.tSlice .tString)) provEmpty rfl rfl).2.2 rfl⟩

/-- C7: `Parse` runs one complete walk per provider in list order on the
same structure in place. On a struct with one string field, when `P1`
resolves the field to `s1` and `P2` to `s2` (both non-empty), the final
field value is `P2`'s resolution; and when the first provider's walk
errors, the whole sequence returns that walk's result unchanged for every
choice of the remaining providers — they are never run. -/
theorem parse_providers_in_order_last_wins (cenv : CEnv)
    (p1 p2 : ProviderFn) (s1 s2 : String)
    (h1 : p1 (.mk "S" [] true .tString) = .ok s1)
    (h2 : p2 (.mk "S" [] true .tString) = .ok s2)
    (hs1 : s1 ≠ "") (hs2 : s2 ≠ "")
    (g : TypeParserMap) (v : GoValue) (q1 : ProviderFn) (e : GoErr)
    (rest : List ProviderFn)
    (hq : (parseWithFuncs g cenv [] q1 v).1 = some e) :
    parse cenv defaultTypeParsers
        (.vPtrSome (.tStruct "C" (.cons (.mk "S" [] true .tString) .nil))
          (.vStruct "C" (.cons (.vString "") .nil))) [p1, p2]
      = (none, .vPtrSome (.tStruct "C" (.cons (.mk "S" [] true .tString) .nil))
          (.vStruct "C" (.cons (.vString s2) .nil)), defaultTypeParsers)
    ∧ parse cenv g v (q1 :: rest) = parseWithFuncs g cenv [] q1 v := by
  constructor
  · simp [parse, parseWithFuncs, mergeMap, doParse, set, tuIdOf, GoField.ty,
      GoField.name, GoField.exported, baseType, allocPtr, lookupMap, GoType.beq,
      defaultBuiltInParsers, GoType.kind, setWrap, convertTo, setNonSlice, h1, h2, hs1, hs2]
  · rcases hx : parseWithFuncs g cenv [] q1 v with ⟨oe, v', g'⟩
    rw [hx] at hq
    simp only [] at hq
    subst hq
    simp [parse, hx]

/-- C7, witness: with constant providers resolving the field to `"one"`
then `"two"`, the final value is `"two"`. -/
theorem parse_providers_in_order_last_wins_witness :
    parse cenvNone defaultTypeParsers
        (.vPtrSome (.tStruct "C" (.cons (.mk "S" [] true .tString) .nil))
          (.vStruct "C" (.cons (.vString "") .nil)))
        [fun _ => .ok "one", fun _ => .ok "two"]
      = (none, .vPtrSome (.tStruct "C" (.cons (.mk "S" [] true .tString) .nil))
          (.vStruct "C" (.cons (.vString "two") .nil)), defaultTypeParsers) :=
  (parse_providers_in_order_last_wins cenvNone (fun _ => .ok "one")
      (fun _ => .ok "two") "one" "two" rfl rfl (by decide) (by decide)
      defaultTypeParsers (.vBool true) (fun _ => .ok "one") .notAStructPtr []
      rfl).1

/-- C5, counterexample: a settable non-nil pointer field whose pointee is
an `int` (not a struct) is not resolved through the provider — the nested
`ParseWithFuncs` call fails the struct check and the whole walk aborts
with `ErrNotAStructPtr`, leaving the field at its old value (the claim
instead promises provider resolution, which here would store 7). -/
theorem nonstruct_pointer_field_aborts_walk :
    parseWithFuncs defaultTypeParsers cenvNone [] (fun _ => .ok "7")
        (.vPtrSome (.tStruct "C" (.cons (.mk "P" [] true (.tPtr (.tNum .int))) .nil))
          (.vStruct "C" (.cons (.vPtrSome (.tNum .int) (.vNum .int 5)) .nil)))
      = (some .notAStructPtr,
         .vPtrSome (.tStruct "C" (.cons (.mk "P" [] true (.tPtr (.tNum .int))) .nil))
           (.vStruct "C" (.cons (.vPtrSome (.tNum .int) (.vNum .int 5)) .nil)),
         defaultTypeParsers) :=
  rfl

/-- Values of fields that take the provider path in the walk: neither
non-nil pointers (which always recurse) nor struct-kind values
(`vStruct`/`vURL`, which have their own cases). Nil pointers are plain:
they are provider-resolved. -/
def fvIsPlain : GoValue → Bool
  | .vPtrSome _ _ => false
  | .vStruct _ _ => false
  | .vURL _ => false
  | _ => true

/-- C5, amended: a settable non-nil pointer-to-struct field is recursed
into with the same provider and the same (self-merged) parser map; a
settable non-nil pointer field whose pointee is NOT a struct aborts the
walk with `ErrNotAStructPtr` instead of being provider-resolved; and every
other settable non-struct-kind field (including nil pointers) is resolved
by asking the provider — a provider error aborts, an empty value skips the
field unchanged, and a non-empty value is converted and assigned via
`set`. -/
theorem ptr_fields_recursed_others_resolved (g : TypeParserMap) (cenv : CEnv)
    (p : ProviderFn) (f : GoField) (fs : FieldList) (rest : ValueList)
    (hex : f.exported = true) :
    (∀ n flds n' ivals,
      doParse cenv p g (.cons f fs)
          (.cons (.vPtrSome (.tStruct n flds) (.vStruct n' ivals)) rest)
        = (match doParse cenv p (mergeMap g g) flds ivals with
           | (some e, ivals', g3) =>
               (some e, .cons (.vPtrSome (.tStruct n flds) (.vStruct n' ivals')) rest, g3)
           | (none, ivals', g3) =>
               match doParse cenv p g3 fs rest with
               | (e2, rest', g4) =>
                   (e2, .cons (.vPtrSome (.tStruct n flds) (.vStruct n' ivals')) rest', g4)))
    ∧ (∀ et pv, isPtrToStructVal (.vPtrSome et pv) = false →
        doParse cenv p g (.cons f fs) (.cons (.vPtrSome et pv) rest)
          = (some .notAStructPtr, .cons (.vPtrSome et pv) rest, g))
    ∧ (∀ fv, fvIsPlain fv = true →
        (∀ e, p f = .error e →
          doParse cenv p g (.cons f fs) (.cons fv rest) = (some e, .cons fv rest, g))
        ∧ (p f = .ok "" →
          doParse cenv p g (.cons f fs) (.cons fv rest)
            = (match doParse cenv p g fs rest with
               | (e2, rest', g2) => (e2, .cons fv rest', g2)))
        ∧ (∀ value, p f = .ok value → value ≠ "" →
          doParse cenv p g (.cons f fs) (.cons fv rest)
            = (match set g cenv f fv value with
               | (some e, fv') => (some e, .cons fv' rest, g)
               | (none, fv') =>
                   match doParse cenv p g fs rest with
                   | (e2, rest', g2) => (e2, .cons fv' rest', g2)))) := by
  refine ⟨?_, ?_, ?_⟩
  · intro n flds n' ivals
    rcases hnest : doParse cenv p (mergeMap g g) flds ivals with ⟨oe, ivals', g3⟩
    cases oe <;> simp [doParse, hex, hnest]
  · intro et pv hshape
    cases et <;> cases pv <;> simp_all [doParse, isPtrToStructVal]
  · intro fv hplain
    refine ⟨fun e hp => ?_, fun hp => ?_, fun value hp hv => ?_⟩
    · cases fv <;> simp_all [doParse, fvIsPlain]
    · cases fv <;> simp_all [doParse, fvIsPlain]
    · rcases hset : set g cenv f fv value with ⟨oe, fv'⟩
      cases fv <;> cases oe <;> simp_all [doParse, fvIsPlain]

/-- C5, witness: a non-nil `*int` field aborts the walk, while a plain
string field is provider-resolved and assigned. -/
theorem ptr_fields_recursed_others_resolved_witness :
    doParse cenvNone (fun _ => .ok "7") defaultTypeParsers
        (.cons (.mk "P" [] true (.tPtr (.tNum .int))) .nil)
        (.cons (.vPtrSome (.tNum .int) (.vNum .int 5)) .nil)
      = (some .notAStructPtr, .cons (.vPtrSome (.tNum .int) (.vNum .int 5)) .nil,
          defaultTypeParsers)
    ∧ doParse cenvNone (fun _ => .ok "7") defaultTypeParsers
        (.cons (.mk "S" [] true .tString) .nil) (.cons (.vString "") .nil)
      = (none, .cons (.vString "7") .nil, defaultTypeParsers) :=
  ⟨(ptr_fields_recursed_others_resolved defaultTypeParsers cenvNone (fun _ => .ok "7")
      (.mk "P" [] true (.tPtr (.tNum .int))) .nil .nil rfl).2.1
      (.tNum .int) (.vNum .int 5) rfl,
   (((ptr_fields_recursed_others_resolved defaultTypeParsers cenvNone (fun _ => .ok "7")
      (.mk "S" [] true .tString) .nil .nil rfl).2.2
      (.vString "") rfl).2.2 "7" rfl (by decide)).trans (by rfl)⟩

/-- An embedded (anonymous) struct type for the custom-parser merge
theorem: the embedded field's name equals its type's name, as Go gives
embedded fields. -/
def inner1T : GoType :=
  .tStruct "Inner1" (.cons (.mk "D" [("env", "DUR")] true .tDuration) .nil)

/-- A struct type reached through a non-nil pointer field. -/
def inner2T : GoType :=
  .tStruct "Inner2" (.cons (.mk "E" [("env", "DUR2")] true .tDuration) .nil)

/-- The outer struct: an embedded `Inner1` and a `*Inner2` field. -/
def outerC3 : GoType :=
  .tStruct "Outer" (.cons (.mk "Inner1" [] true inner1T)
    (.cons (.mk "B" [] true (.tPtr inner2T)) .nil))

/-- A provider resolving the two nested duration fields to `s` and
everything else (in particular the embedded field itself) to the empty
string. -/
def provC3 (s : String) : ProviderFn := fun fld =>
  if fld.name = "D" ∨ fld.name = "E" then .ok s else .ok ""

/-- C3: a custom parser for `time.Duration` passed to
`ParseWithFuncs`/`ParseWithCustomParsers` is merged over the built-in
type-specific map with precedence (the merged map maps `time.Duration` to
the custom entry) and governs conversion for the whole call and its nested
recursive calls: both the duration field inside the embedded anonymous
struct and the one behind the non-nil pointer-to-struct field receive the
custom parser's output `w` — whatever `w` is, so the built-in duration
parser cannot be the one that ran. -/
theorem custom_parsers_merge_through_recursion (cenv : CEnv) (s : String)
    (w : GoValue) (hs : s ≠ "") (hw : cenv.parse 0 s = .ok w) :
    parseWithFuncs defaultTypeParsers cenv [(.tDuration, .custom 0)] (provC3 s)
        (.vPtrSome outerC3 (.vStruct "Outer"
          (.cons (.vStruct "Inner1" (.cons (.vDuration 0) .nil))
            (.cons (.vPtrSome inner2T (.vStruct "Inner2" (.cons (.vDuration 0) .nil)))
              .nil))))
      = (none,
         .vPtrSome outerC3 (.vStruct "Outer"
           (.cons (.vStruct "Inner1" (.cons w .nil))
             (.cons (.vPtrSome inner2T (.vStruct "Inner2" (.cons w .nil))) .nil))),
         [(.tURL, .urlParser), (.tDuration, .custom 0)])
    ∧ lookupMap (mergeMap defaultTypeParsers [(.tDuration, .custom 0)]) .tDuration
        = some (.custom 0) := by
  refine ⟨?_, rfl⟩
  simp [parseWithFuncs, outerC3, inner1T, inner2T, mergeMap, insertMap, doParse,
    provC3, GoField.name, GoField.ty, GoField.exported, set, setNonSlice, tuIdOf, allocPtr,
    baseType, lookupMap, GoType.beq, runParser, setWrap, hs, hw,
    defaultTypeParsers, List.foldl]

/-- C3, witness: a custom duration parser mapping `"5x"` (which the
built-in duration parser rejects) to 99 populates both nested fields. -/
theorem custom_parsers_merge_through_recursion_witness :
    parseWithFuncs defaultTypeParsers
        ⟨fun id str => if id = 0 ∧ str = "5x" then .ok (.vDuration 99)
                       else .error (.customErr "no custom parser"),
         fun _ _ => .error (.customErr "no text unmarshaler")⟩
        [(.tDuration, .custom 0)] (provC3 "5x")
        (.vPtrSome outerC3 (.vStruct "Outer"
          (.cons (.vStruct "Inner1" (.cons (.vDuration 0) .nil))
            (.cons (.vPtrSome inner2T (.vStruct "Inner2" (.cons (.vDuration 0) .nil)))
              .nil))))
      = (none,
         .vPtrSome outerC3 (.vStruct "Outer"
           (.cons (.vStruct "Inner1" (.cons (.vDuration 99) .nil))
             (.cons (.vPtrSome inner2T (.vStruct "Inner2" (.cons (.vDuration 99) .nil)))
               .nil))),
         [(.tURL, .urlParser), (.tDuration, .custom 0)]) :=
  (custom_parsers_merge_through_recursion
      ⟨fun id str => if id = 0 ∧ str = "5x" then .ok (.vDuration 99)
                     else .error (.customErr "no custom parser"),
       fun _ _ => .error (.customErr "no text unmarshaler")⟩
      "5x" (.vDuration 99) (by decide) rfl).1

/-- The six conversion strategies of the spec's type-conversion policy. -/
inductive Strategy where
  | sliceConv
  | textUnmarshal
  | typeParser
  | builtinKind
  | jsonObject
  | noParserFound
deriving DecidableEq, Repr

/-- Whether the field value is a slice. -/
def isSliceVal : GoValue → Bool
  | .vSlice _ _ => true
  | _ => false

/-- The spec's wording for strategy 2: the field — or its pointed-to type,
if the field is a pointer — implements text-unmarshaling. -/
def tuApplies (f : GoField) (fv : GoValue) : Bool :=
  match fv with
  | .vPtrNil t => typeHasTU t
  | .vPtrSome t _ => typeHasTU t
  | _ => typeHasTU f.ty

/-- The spec's type-conversion policy, applied in its stated precedence
order with the first match winning: (1) slice conversion, (2)
text-unmarshaling, (3) a parser registered in the per-call type-keyed map
for the exact destination type (custom entries having been merged over the
built-in type-specific entries), (4) a built-in parser for the destination
kind, (5) JSON-object decoding for struct-kind destinations when the
string passes the code's JSON-object test, (6) no parser found. -/
def chooseStrategy (g : TypeParserMap) (f : GoField) (fv : GoValue)
    (value : String) : Strategy :=
  if isSliceVal fv then .sliceConv
  else if tuApplies f fv then .textUnmarshal
  else if (lookupMap g (baseType f.ty)).isSome then .typeParser
  else if (defaultBuiltInParsers (baseType f.ty).kind).isSome then .builtinKind
  else if (baseType f.ty).kind = .kStruct ∧ (jsonValid value && isJSONObj value) = true
    then .jsonObject
  else .noParserFound

/-- The spec's strategy-2 test agrees with the unmarshaler `set`
resolves. -/
theorem tuApplies_eq_isSome (f : GoField) (fv : GoValue) :
    tuApplies f fv = (tuIdOf f fv).isSome := by
  cases fv with
  | vPtrNil t => cases t <;> simp [tuApplies, tuIdOf, typeHasTU] <;> rename_i tu <;>
      cases tu <;> simp
  | vPtrSome t pv => cases t <;> simp [tuApplies, tuIdOf, typeHasTU] <;> rename_i tu <;>
      cases tu <;> simp
  | _ =>
      cases hty : f.ty <;> simp [tuApplies, tuIdOf, typeHasTU, hty] <;> rename_i tu <;>
        (try cases tu) <;> simp_all [tuIdOf]

/-- `set` on a non-slice value is the `setNonSlice` cascade. -/
theorem set_eq_nonslice (g : TypeParserMap) (cenv : CEnv) (f : GoField)
    (fv : GoValue) (value : String) (h : isSliceVal fv = false) :
    set g cenv f fv value = setNonSlice g cenv f fv value := by
  cases fv <;> simp_all [isSliceVal, set]

/-- C1: for every field with a non-empty resolved string, `set` picks its
conversion strategy in the spec's strict precedence order with the first
match winning: slice conversion; text-unmarshaling with the raw string
(allocating the pointee of a nil pointer first — `allocPtr` appears in
every later outcome too, and errors keep the allocation); the type-keyed
parser for the exact destination type; the built-in parser for the
destination kind (with the earlier strategies shown inapplicable); JSON
decoding for struct-kind destinations passing the code's JSON-object test;
and otherwise the no-parser error. -/
theorem set_follows_spec_precedence (g : TypeParserMap) (cenv : CEnv)
    (f : GoField) (fv : GoValue) (value : String) (hv : value ≠ "") :
    (chooseStrategy g f fv value = .sliceConv →
      set g cenv f fv value = handleSlice g cenv f fv value)
    ∧ (chooseStrategy g f fv value = .textUnmarshal →
      ∃ id, tuIdOf f fv = some id ∧
        set g cenv f fv value
          = (match cenv.ut id value with
             | .error e => (some (.parseErr f.name f.ty e), allocPtr fv)
             | .ok payload => (none, tuWrite (allocPtr fv) id payload)))
    ∧ (chooseStrategy g f fv value = .typeParser →
      tuIdOf f fv = none
      ∧ ∃ pr, lookupMap g (baseType f.ty) = some pr ∧
        set g cenv f fv value
          = (match runParser pr cenv value with
             | .error e => (some (.parseErr f.name f.ty e), allocPtr fv)
             | .ok val => (none, setWrap f val)))
    ∧ (chooseStrategy g f fv value = .builtinKind →
      tuIdOf f fv = none ∧ lookupMap g (baseType f.ty) = none
      ∧ ∃ bp, defaultBuiltInParsers (baseType f.ty).kind = some bp ∧
        set g cenv f fv value
          = (match bp value with
             | .error e => (some (.parseErr f.name f.ty e), allocPtr fv)
             | .ok val => (none, setWrap f (convertTo (baseType f.ty) val))))
    ∧ (chooseStrategy g f fv value = .jsonObject →
      (jsonValid value && isJSONObj value) = true
      ∧ (match baseType f.ty with
         | .tStruct n flds =>
             set g cenv f fv value
               = (match jparse value with
                  | some (.jobj members) =>
                      (match jsonDecodeStruct flds members with
                       | .error e => (some e, allocPtr fv)
                       | .ok vals => (none, setWrap f (.vStruct n vals)))
                  | some .jnull => (none, setWrap f (.vStruct n (zeroFields flds)))
                  | _ => (some (.jsonError "unreachable"), allocPtr fv))
         | _ => set g cenv f fv value = (none, setWrap f (zeroValue (baseType f.ty)))))
    ∧ (chooseStrategy g f fv value = .noParserFound →
      set g cenv f fv value = (some (.noParser f.name f.ty), allocPtr fv)) := by
  have toNone : ∀ {α : Type} (o : Option α), ¬(o.isSome = true) → o = none := by
    intro α o h
    cases o with
    | none => rfl
    | some a => simp at h
  refine ⟨fun hstrat => ?_, fun hstrat => ?_, fun hstrat => ?_, fun hstrat => ?_,
    fun hstrat => ?_, fun hstrat => ?_⟩ <;>
    simp only [chooseStrategy] at hstrat <;>
    split_ifs at hstrat with h1 h2 h3 h4 h5 <;>
    try simp at hstrat
  · -- slice
    cases fv <;> simp_all [isSliceVal, set]
  · -- text unmarshaler
    simp only [Bool.not_eq_true] at h1
    rw [tuApplies_eq_isSome] at h2
    obtain ⟨id, hid⟩ := Option.isSome_iff_exists.mp h2
    refine ⟨id, hid, ?_⟩
    rw [set_eq_nonslice g cenv f fv value h1]
    simp only [setNonSlice, hid]
  · -- type-keyed parser
    simp only [Bool.not_eq_true] at h1
    rw [tuApplies_eq_isSome] at h2
    have h2' := toNone _ h2
    obtain ⟨pr, hpr⟩ := Option.isSome_iff_exists.mp h3
    refine ⟨h2', pr, hpr, ?_⟩
    rw [set_eq_nonslice g cenv f fv value h1]
    simp only [setNonSlice, h2', hpr]
  · -- built-in kind parser
    simp only [Bool.not_eq_true] at h1
    rw [tuApplies_eq_isSome] at h2
    have h2' := toNone _ h2
    have h3' := toNone _ h3
    obtain ⟨bp, hbp⟩ := Option.isSome_iff_exists.mp h4
    refine ⟨h2', h3', bp, hbp, ?_⟩
    rw [set_eq_nonslice g cenv f fv value h1]
    simp only [setNonSlice, h2', h3', hbp]
  · -- JSON object
    simp only [Bool.not_eq_true] at h1
    rw [tuApplies_eq_isSome] at h2
    have h2' := toNone _ h2
    have h3' := toNone _ h3
    have h4' := toNone _ h4
    refine ⟨h5.2, ?_⟩
    have hset := set_eq_nonslice g cenv f fv value h1
    rcases hbt : baseType f.ty <;>
      simp_all [setNonSlice, GoType.kind]
  · -- no parser found
    simp only [Bool.not_eq_true] at h1
    rw [tuApplies_eq_isSome] at h2
    have h2' := toNone _ h2
    have h3' := toNone _ h3
    have h4' := toNone _ h4
    rw [set_eq_nonslice g cenv f fv value h1]
    by_cases hk : (baseType f.ty).kind = .kStruct
    · have hjson : ¬((jsonValid value && isJSONObj value) = true) := fun hj => h5 ⟨hk, hj⟩
      simp only [setNonSlice, h2', h3', h4', hk, if_true, if_neg hjson,
        defaultBuiltInParsers]
    · simp only [setNonSlice, h2', h3', h4', if_neg hk]

/-- C1, witness: for a `time.Duration` field with value `"5s"` the chosen
strategy is the type-keyed parser, and `set` indeed stores the parsed
duration. -/
theorem set_follows_spec_precedence_witness :
    chooseStrategy defaultTypeParsers (.mk "D" [] true .tDuration) (.vDuration 0) "5s"
      = .typeParser
    ∧ set defaultTypeParsers cenvNone (.mk "D" [] true .tDuration) (.vDuration 0) "5s"
      = (none, .vDuration 5000000000) := by
  refine ⟨rfl, ?_⟩
  obtain ⟨htu, pr, hpr, heq⟩ :=
    (set_follows_spec_precedence defaultTypeParsers cenvNone
      (.mk "D" [] true .tDuration) (.vDuration 0) "5s" (by decide)).2.2.1 rfl
  rw [show lookupMap defaultTypeParsers
      (baseType (GoField.mk "D" [] true GoType.tDuration).ty)
      = some ParserRef.durationParser from rfl] at hpr
  injection hpr with hpr'
  subst hpr'
  exact heq.trans rfl

end Conf
